import Mathlib

set_option exponentiation.threshold 5000
set_option maxRecDepth 4000

/-!
Verification of the batch file-collection and statistics pipeline of
`src/index.mjs` (cli-image-optimization), via a shallow embedding of the
script's pure logic in Lean.  The script's JavaScript numbers are IEEE-754
binary64 doubles.  Byte counts and totals are sums and differences of
integers below 2^53, which doubles carry exactly, so they are embedded as
`Nat`/`Int`; likewise the `formatFileSize` quotients by powers of two are
exact in doubles and are embedded as exact `Rat`.  The savings-percentage
quotient of src/index.mjs:73 is NOT exact in doubles, so it is embedded
with an explicit model of binary64 round-to-nearest-even arithmetic
(`roundDoubleRat` below) on exact rationals.  Effectful collaborators (the
filesystem, the network, the `sharp` transcoder) appear as explicit oracle
arguments.
-/

namespace CliImageOpt

/-! ### Model of `Number.prototype.toFixed(2)`

ECMA-262 specifies `toFixed(f)`: for negative `x` emit `"-"` and continue
with `-x`; choose the integer `n` with `n / 10^f` closest to `x`, ties going
to the larger `n` (i.e. round half up in magnitude); render with exactly
`f` fractional digits. -/

/-- Render `m / 100` (with `m : ℕ`) using exactly two fractional digits. -/
def toFixed2Nat (m : ℕ) : String :=
  toString (m / 100) ++ "." ++
    (if m % 100 < 10 then "0" ++ toString (m % 100) else toString (m % 100))

/-- Model of JavaScript `q.toFixed(2)` on an (idealised, exact) number `q`. -/
def toFixed2 (q : ℚ) : String :=
  if q < 0 then "-" ++ toFixed2Nat (Int.toNat ⌊-q * 100 + 1/2⌋)
  else toFixed2Nat (Int.toNat ⌊q * 100 + 1/2⌋)

/-- `formatFileSize` (src/index.mjs:25-29): bytes below 1024, KB below one
MiB (1024-byte kilobytes), MB otherwise; KB/MB via `toFixed(2)`. -/
def formatFileSize (bytes : ℕ) : String :=
  if bytes < 1024 then toString bytes ++ " B"
  else if bytes < 1024 * 1024 then toFixed2 ((bytes : ℚ) / 1024) ++ " KB"
  else toFixed2 ((bytes : ℚ) / (1024 * 1024)) ++ " MB"

lemma toString_length_of_lt_100 :
    ∀ d : ℕ, d < 100 → (if d < 10 then (toString d).length = 1 else (toString d).length = 2) := by
  decide

lemma toFixed2Nat_decomp (m : ℕ) :
    ∃ ip fp, toFixed2Nat m = ip ++ "." ++ fp ∧ fp.length = 2 := by
  refine ⟨toString (m / 100),
    (if m % 100 < 10 then "0" ++ toString (m % 100) else toString (m % 100)), rfl, ?_⟩
  have hlt : m % 100 < 100 := Nat.mod_lt _ (by norm_num)
  have h := toString_length_of_lt_100 (m % 100) hlt
  by_cases h10 : m % 100 < 10
  · simp only [h10, if_pos] at h ⊢
    simp [String.length_append, h]
    rfl
  · simp only [h10, if_neg, if_false] at h ⊢
    exact h

lemma toFixed2_decomp (q : ℚ) :
    ∃ ip fp, toFixed2 q = ip ++ "." ++ fp ∧ fp.length = 2 := by
  unfold toFixed2
  by_cases hq : q < 0
  · simp only [hq, if_pos]
    obtain ⟨ip, fp, hipfp, hlen⟩ := toFixed2Nat_decomp (Int.toNat ⌊-q * 100 + 1/2⌋)
    refine ⟨"-" ++ ip, fp, ?_, hlen⟩
    rw [hipfp]
    simp [String.append_assoc]
  · simp only [hq, if_neg, if_false]
    exact toFixed2Nat_decomp _

/-- C3: for every non-negative byte count `b`, `formatFileSize b` is the
plain byte string iff `b < 1024`, the `toFixed(2)`-rounded quotient by 1024
with unit KB iff `1024 ≤ b < 1024·1024`, and otherwise the
`toFixed(2)`-rounded quotient by 1024·1024 with unit MB; in the KB/MB cases
the rendered number carries exactly two fractional digits. -/
theorem formatFileSize_spec (b : ℕ) :
    (b < 1024 → formatFileSize b = toString b ++ " B")
    ∧ (1024 ≤ b → b < 1024 * 1024 →
        formatFileSize b = toFixed2 ((b : ℚ) / 1024) ++ " KB"
        ∧ ∃ ip fp, formatFileSize b = ip ++ "." ++ fp ++ " KB" ∧ fp.length = 2)
    ∧ (1024 * 1024 ≤ b →
        formatFileSize b = toFixed2 ((b : ℚ) / (1024 * 1024)) ++ " MB"
        ∧ ∃ ip fp, formatFileSize b = ip ++ "." ++ fp ++ " MB" ∧ fp.length = 2) := by
  refine ⟨fun h => by simp [formatFileSize, h], fun h1 h2 => ?_, fun h => ?_⟩
  · have hn : ¬ b < 1024 := not_lt.mpr h1
    have heq : formatFileSize b = toFixed2 ((b : ℚ) / 1024) ++ " KB" := by
      simp [formatFileSize, hn, h2]
    obtain ⟨ip, fp, hipfp, hlen⟩ := toFixed2_decomp ((b : ℚ) / 1024)
    exact ⟨heq, ip, fp, by rw [heq, hipfp], hlen⟩
  · have hn1 : ¬ b < 1024 := not_lt.mpr (le_trans (by norm_num) h)
    have hn2 : ¬ b < 1024 * 1024 := not_lt.mpr h
    have heq : formatFileSize b = toFixed2 ((b : Rat) / (1024 * 1024)) ++ " MB" := by
      simp [formatFileSize, hn1, hn2]
    obtain ⟨ip, fp, hipfp, hlen⟩ := toFixed2_decomp ((b : ℚ) / (1024 * 1024))
    exact ⟨heq, ip, fp, by rw [heq, hipfp], hlen⟩

/-- Witness for `formatFileSize_spec` at the concrete byte count 2048. -/
theorem formatFileSize_spec_witness :
    formatFileSize 2048 = toFixed2 ((2048 : ℚ) / 1024) ++ " KB" :=
  ((formatFileSize_spec 2048).2.1 (by norm_num) (by norm_num)).1

/-! ### FileStatRecord and the per-file savings percentage -/

/-- The per-file stat record built by `processImage` (src/index.mjs:75-85). -/
structure FileStat where
  inputPath : String
  outputPath : String
  originalSize : ℕ
  optimizedSize : ℕ
  originalFormat : String
  optimizedFormat : String
  originalDimensions : String
  optimizedDimensions : String
  savings : String
deriving DecidableEq

/-! #### IEEE-754 binary64 arithmetic on exact rationals

The savings expression of src/index.mjs:73 is evaluated in doubles:
`inputStats.size - outputStats.size` is exact (integers below 2^53), but
the division and the multiplication by 100 are each correctly rounded to
the nearest binary64 value (ties to even).  `roundDoubleRat num den` is
that rounding of the exact rational `num / den`: the result `(n, s)`
denotes `n * 2^s` with `|n| ≤ 2^53` and `s ≥ -1074` (subnormals included;
magnitudes at or beyond 2^1024, which cannot arise from this program's
bounded inputs, are collapsed to a single overflow sentinel). -/

/-- `2^e ≤ a / b`, in integer arithmetic (`a b : ℕ`, `b ≥ 1`). -/
def le2pow (a b : ℕ) (e : ℤ) : Bool :=
  if 0 ≤ e then b * 2 ^ e.toNat ≤ a else b ≤ a * 2 ^ (-e).toNat

/-- Bisection (on fuel) for the binade exponent: the greatest `e` in
`[lo, hi)` with `2^e ≤ a / b`, under the invariant `2^lo ≤ a/b < 2^hi`
(with out-of-range values clamped to the ends, which the caller's
subnormal/overflow handling absorbs). -/
def findExpF : ℕ → ℕ → ℕ → ℤ → ℤ → ℤ
  | 0, _, _, lo, _ => lo
  | fuel + 1, a, b, lo, hi =>
      if hi ≤ lo + 1 then lo
      else if le2pow a b ((lo + hi) / 2) then findExpF fuel a b ((lo + hi) / 2) hi
      else findExpF fuel a b lo ((lo + hi) / 2)

/-- Round `num / den` (`den ≥ 1`) to the nearest integer, ties to even. -/
def rheNat (num den : ℕ) : ℕ :=
  if 2 * (num % den) < den then num / den
  else if den < 2 * (num % den) then num / den + 1
  else if (num / den) % 2 = 0 then num / den else num / den + 1

/-- Round the positive rational `a / b` (`a, b ≥ 1`) to 53 significant
bits: result `(n, scale)` denotes `n * 2^scale`. -/
def roundMagnitude (a b : ℕ) : ℕ × ℤ :=
  let e := findExpF 15 a b (-1100) 1030
  if 1024 ≤ e then (1, 1024)
  else
    let scale := max (e - 52) (-1074)
    let n := if 0 ≤ scale then rheNat a (b * 2 ^ scale.toNat)
             else rheNat (a * 2 ^ (-scale).toNat) b
    (n, scale)

/-- The binary64 double nearest to `num / den` (`den ≥ 1`), as a signed
dyadic pair `(n, s)` denoting `n * 2^s`. -/
def roundDoubleRat (num : ℤ) (den : ℕ) : ℤ × ℤ :=
  if num = 0 then (0, 0)
  else if num < 0 then
    (-(((roundMagnitude (-num).toNat den).1 : ℤ)), (roundMagnitude (-num).toNat den).2)
  else (((roundMagnitude num.toNat den).1 : ℤ), (roundMagnitude num.toNat den).2)

/-- The double computed by `((o - p) / o) * 100` at src/index.mjs:73: the
subtraction is exact, the division is rounded, and the product with 100 is
rounded again. -/
def savingsDouble (o p : ℕ) : ℤ × ℤ :=
  let d1 := roundDoubleRat ((o : ℤ) - (p : ℤ)) o
  if 0 ≤ d1.2 then roundDoubleRat (100 * d1.1 * ((2 ^ d1.2.toNat : ℕ) : ℤ)) 1
  else roundDoubleRat (100 * d1.1) (2 ^ (-d1.2).toNat)

/-- `⌊(n * 2^s) * 100 + 1/2⌋` in integer arithmetic: the hundredths
integer that ECMA `toFixed(2)` renders for the non-negative dyadic value
`n * 2^s` (closest hundredth, ties to the larger). -/
def hundredthsOfDyadic (n : ℕ) (s : ℤ) : ℕ :=
  if 0 ≤ s then 100 * n * 2 ^ s.toNat
  else (200 * n + 2 ^ (-s).toNat) / 2 ^ ((-s).toNat + 1)

/-- The savings string of src/index.mjs:73:
`(((inputStats.size - outputStats.size) / inputStats.size) * 100).toFixed(2)`,
with the arithmetic performed in binary64 doubles and `toFixed(2)` applied
to the resulting double's exact value. -/
def savingsString (o p : ℕ) : String :=
  if (savingsDouble o p).1 < 0 then
    "-" ++ toFixed2Nat (hundredthsOfDyadic (Int.toNat (-(savingsDouble o p).1))
      (savingsDouble o p).2)
  else toFixed2Nat (hundredthsOfDyadic (Int.toNat (savingsDouble o p).1) (savingsDouble o p).2)

/-- The pure core of `processImage` (src/index.mjs:70-85): given the byte
sizes and metadata read back from the filesystem and `sharp`, build the
stat record that the function returns. -/
def processImageStats (inputPath outputPath : String) (originalSize optimizedSize : ℕ)
    (originalFormat optimizedFormat originalDimensions optimizedDimensions : String) :
    FileStat :=
  { inputPath := inputPath
    outputPath := outputPath
    originalSize := originalSize
    optimizedSize := optimizedSize
    originalFormat := originalFormat
    optimizedFormat := optimizedFormat
    originalDimensions := originalDimensions
    optimizedDimensions := optimizedDimensions
    savings := savingsString originalSize optimizedSize }

/-- One iteration of the `for (const file of imageFiles)` loop.  The
accumulator is `(processedStats, erroredFiles, totalOriginalBytes,
totalSavedBytes)`. -/
def batchStep (transcode : String → Option FileStat)
    (acc : List FileStat × List String × ℤ × ℤ) (file : String) :
    List FileStat × List String × ℤ × ℤ :=
  match transcode file with
  | some st =>
      (acc.1 ++ [st], acc.2.1,
       acc.2.2.1 + (st.originalSize : ℤ),
       acc.2.2.2 + ((st.originalSize : ℤ) - (st.optimizedSize : ℤ)))
  | none => (acc.1, acc.2.1 ++ [file], acc.2.2.1, acc.2.2.2)

/-- The whole batch loop over the resolved files, started from the empty
stats list and zero totals, as in `main`. -/
def runBatch (transcode : String → Option FileStat) (files : List String) :
    List FileStat × List String × ℤ × ℤ :=
  files.foldl (batchStep transcode) ([], [], 0, 0)

lemma foldl_batchStep (transcode : String → Option FileStat) (files : List String)
    (acc : List FileStat × List String × ℤ × ℤ) :
    files.foldl (batchStep transcode) acc
      = (acc.1 ++ files.filterMap transcode,
         acc.2.1 ++ (files.filter (fun f => (transcode f).isNone)).map id,
         acc.2.2.1 + ((files.filterMap transcode).map (fun st => (st.originalSize : ℤ))).sum,
         acc.2.2.2 + ((files.filterMap transcode).map
           (fun st => (st.originalSize : ℤ) - (st.optimizedSize : ℤ))).sum) := by
  induction files generalizing acc with
  | nil => simp
  | cons f fs ih =>
      simp only [List.foldl_cons, ih, batchStep]
      cases h : transcode f with
      | some st => simp [h, List.filterMap_cons, List.filter_cons, add_assoc]
      | none => simp [h, List.filterMap_cons, List.filter_cons]

/-- C2: a failure on one file never aborts the batch.  The emitted record
sequence is exactly `filterMap` of the transcoding oracle over the input
files — every file is consulted, successes are kept in input order, and
failures are omitted (not reordered) — while every failing file's path is
reported, also in input order. -/
theorem runBatch_spec (transcode : String → Option FileStat) (files : List String) :
    (runBatch transcode files).1 = files.filterMap transcode
    ∧ (runBatch transcode files).2.1 = files.filter (fun f => (transcode f).isNone) := by
  have h := foldl_batchStep transcode files ([], [], 0, 0)
  unfold runBatch
  rw [h]
  simp

lemma runBatch_totals (transcode : String → Option FileStat) (files : List String) :
    (runBatch transcode files).2.2.1
        = (((runBatch transcode files).1).map (fun st => (st.originalSize : ℤ))).sum
    ∧ (runBatch transcode files).2.2.2
        = (((runBatch transcode files).1).map
            (fun st => (st.originalSize : ℤ) - (st.optimizedSize : ℤ))).sum := by
  have h := foldl_batchStep transcode files ([], [], 0, 0)
  unfold runBatch
  rw [h]
  simp

/-! ### Totals and the aggregate report (src/index.mjs:226-234) -/

/-- `totalOriginalBytes` accumulated over a stat sequence. -/
def totalOriginalBytes (stats : List FileStat) : ℤ :=
  (stats.map (fun st => (st.originalSize : ℤ))).sum

/-- `totalSavedBytes` accumulated over a stat sequence: per record,
`originalSize - optimizedSize`. -/
def totalSavedBytes (stats : List FileStat) : ℤ :=
  (stats.map (fun st => (st.originalSize : ℤ) - (st.optimizedSize : ℤ))).sum

/-- The aggregate block printed at src/index.mjs:226-234. -/
inductive AggregateReport where
  | totals (sizeBefore sizeAfter spaceSaved : ℤ) (savingsPercent : String) : AggregateReport
  | noImages : AggregateReport
deriving DecidableEq

/-- The final statistics block: when at least one record exists, report
before/after/saved with a percentage; otherwise report that no images were
processed (src/index.mjs:226-234).  `Total Size After` is printed as
`totalOriginalBytes - totalSavedBytes` (line 230). -/
def aggregateReport (stats : List FileStat) : AggregateReport :=
  if 0 < stats.length then
    .totals (totalOriginalBytes stats)
      (totalOriginalBytes stats - totalSavedBytes stats)
      (totalSavedBytes stats)
      (toFixed2 (((totalSavedBytes stats : ℚ) / (totalOriginalBytes stats : ℚ)) * 100))
  else .noImages

/-- C7: for every nonempty stat sequence, the reported optimized total
(`total original - total saved`, with total saved the sum of per-record
`originalSize - optimizedSize`) equals the sum of the optimized sizes. -/
theorem reported_total_after (stats : List FileStat) (h : stats ≠ []) :
    totalOriginalBytes stats - totalSavedBytes stats
      = (stats.map (fun st => (st.optimizedSize : ℤ))).sum := by
  unfold totalOriginalBytes totalSavedBytes
  induction stats with
  | nil => simp
  | cons st rest ih =>
      by_cases hrest : rest = []
      · simp [hrest]
      · simp only [List.map_cons, List.sum_cons]
        have := ih hrest
        omega

/-- Witness for `reported_total_after` on a concrete two-record batch. -/
theorem reported_total_after_witness :
    totalOriginalBytes
        [processImageStats "a" "oa" 2000 1500 "png" "webp" "4x4" "4x4",
         processImageStats "b" "ob" 3000 1000 "jpeg" "webp" "4x4" "4x4"]
      - totalSavedBytes
        [processImageStats "a" "oa" 2000 1500 "png" "webp" "4x4" "4x4",
         processImageStats "b" "ob" 3000 1000 "jpeg" "webp" "4x4" "4x4"]
      = (([processImageStats "a" "oa" 2000 1500 "png" "webp" "4x4" "4x4",
           processImageStats "b" "ob" 3000 1000 "jpeg" "webp" "4x4" "4x4"]).map
          (fun st => (st.optimizedSize : ℤ))).sum :=
  reported_total_after _ (by simp)

/-- C8: an empty stat sequence yields the `noImages` report — the
percentage (the only division by `totalOriginalBytes`) is computed only in
the nonempty branch, so no division and no fault occurs. -/
theorem aggregateReport_empty : aggregateReport [] = AggregateReport.noImages := rfl

/-! ### Prompt handling: format choice and quality (src/index.mjs:117-122)

`parseIntJS` models the JavaScript builtin `parseInt` with no radix
argument on ordinary input: skip leading whitespace, read an optional sign,
then take the longest prefix of decimal digits, giving NaN (`none`) when
there is no digit.  (The `0x`-prefixed radix-16 form of the builtin is not
modelled; no claim involves it.) -/

/-- Value of the longest decimal-digit prefix; `none` when there is none. -/
def parseIntDigits (cs : List Char) : Option ℕ :=
  let ds := (cs.span (fun c => c.isDigit)).1
  if ds.isEmpty then none
  else some (ds.foldl (fun acc c => acc * 10 + (c.toNat - 48)) 0)

/-- Model of JavaScript `parseInt(s)` (radix-10 part); `none` models NaN. -/
def parseIntJS (s : String) : Option ℤ :=
  match s.data.dropWhile (fun c => c.isWhitespace) with
  | '+' :: rest => (parseIntDigits rest).map (fun n => (n : ℤ))
  | '-' :: rest => (parseIntDigits rest).map (fun n => -(n : ℤ))
  | cs => (parseIntDigits cs).map (fun n => (n : ℤ))

/-- The quality prompt (src/index.mjs:122):
`qualityInput ? Math.min(100, Math.max(0, parseInt(qualityInput))) : 80`.
An empty string is falsy, so it yields 80; on a non-empty string,
`parseInt` may give NaN, which `Math.max`/`Math.min` propagate — `none`
models a NaN quality. -/
def chooseQuality (qualityInput : String) : Option ℤ :=
  if qualityInput = "" then some 80
  else match parseIntJS qualityInput with
    | none => none
    | some n => some (min 100 (max 0 n))

/-- C4 counterexample: the non-empty input "abc" does not yield an integer
quality clamped into [0,100] — `parseInt("abc")` is NaN and
`Math.min(100, Math.max(0, NaN))` stays NaN (`none`). -/
theorem chooseQuality_counterexample :
    ¬("abc" = "") ∧ chooseQuality "abc" = none ∧ ¬ ∃ n : ℤ, chooseQuality "abc" = some n := by
  have h : chooseQuality "abc" = none := by decide
  refine ⟨by decide, h, ?_⟩
  rintro ⟨n, hn⟩
  rw [h] at hn
  cases hn

/-- C4 (amended): the empty input yields quality 80, and every input whose
`parseInt` is a number yields that number clamped into [0,100]; in
particular "150" clamps to 100 and "-5" clamps to 0.  (A non-empty input
that `parseInt` cannot parse yields NaN, not a clamped integer.) -/
theorem chooseQuality_amended :
    chooseQuality "" = some 80
    ∧ (∀ s n, parseIntJS s = some n →
        chooseQuality s = some (min 100 (max 0 n))
        ∧ 0 ≤ min 100 (max 0 n) ∧ min 100 (max 0 n) ≤ 100)
    ∧ chooseQuality "150" = some 100 ∧ chooseQuality "-5" = some 0 := by
  refine ⟨rfl, fun s n h => ?_, by decide, by decide⟩
  have hs : ¬ s = "" := by
    rintro rfl
    rw [show parseIntJS "" = none from by decide] at h
    cases h
  refine ⟨?_, le_min (by norm_num) (le_max_left 0 n), min_le_left 100 _⟩
  simp [chooseQuality, hs, h]

/-- Witness for `chooseQuality_amended` at the parseable input "42". -/
theorem chooseQuality_amended_witness :
    chooseQuality "42" = some (min 100 (max 0 42)) :=
  (chooseQuality_amended.2.1 "42" 42 (by decide)).1

/-- The format prompt (src/index.mjs:119):
`formatChoice ? (formatChoice === "1" ? "webp" : "png") : "webp"`. -/
def chooseFormat (formatChoice : String) : String :=
  if formatChoice = "" then "webp"
  else if formatChoice = "1" then "webp" else "png"

/-- C10: the selected format is webp exactly when the input is empty or the
single character "1", and every other non-empty input (for example "3" or
arbitrary text) selects png. -/
theorem chooseFormat_spec (s : String) :
    (chooseFormat s = "webp" ↔ (s = "" ∨ s = "1"))
    ∧ (¬ s = "" → ¬ s = "1" → chooseFormat s = "png") := by
  constructor
  · constructor
    · intro h
      by_contra hboth
      push_neg at hboth
      simp [chooseFormat, hboth.1, hboth.2] at h
    · rintro (rfl | rfl) <;> rfl
  · intro h1 h2
    simp [chooseFormat, h1, h2]

/-- Witness for `chooseFormat_spec`: the non-empty input "3" (not "2")
selects png. -/
theorem chooseFormat_spec_witness : chooseFormat "3" = "png" :=
  (chooseFormat_spec "3").2 (by decide) (by decide)

/-! ### Directory resolution (src/index.mjs:158-165) -/

/-- Test of the regex `/\.(jpg|jpeg|png|gif|webp)$/i` on an entry name: the
name, case-folded, ends in one of the five dot-prefixed extensions. -/
def isImageFile (name : String) : Bool :=
  let l := name.data.map Char.toLower
  ".jpg".data.isSuffixOf l || ".jpeg".data.isSuffixOf l || ".png".data.isSuffixOf l
    || ".gif".data.isSuffixOf l || ".webp".data.isSuffixOf l

/-- The `EmptyDirectoryError` message thrown at src/index.mjs:164. -/
def emptyDirectoryMsg : String := "No image files found in the directory!"

/-- Directory handling (src/index.mjs:160-165): filter the enumerated
entries by the image-extension regex and throw when none match. -/
def resolveDirectory (entries : List String) : Except String (List String) :=
  if (entries.filter (fun file => isImageFile file)).length = 0 then
    Except.error emptyDirectoryMsg
  else Except.ok (entries.filter (fun file => isImageFile file))

/-- C5: resolving a directory keeps exactly the entries whose name ends in
a case-insensitive image extension (membership characterisation, i.e. set
equality up to the enumeration order), fails with the `EmptyDirectoryError`
iff no entry matches, and on `{a.jpg, b.txt, c.png}` yields
`{a.jpg, c.png}`. -/
theorem resolveDirectory_spec :
    (∀ entries files, resolveDirectory entries = Except.ok files →
        ∀ e, e ∈ files ↔ (e ∈ entries ∧ isImageFile e = true))
    ∧ (∀ entries, (∃ msg, resolveDirectory entries = Except.error msg) ↔
        ∀ e ∈ entries, isImageFile e = false)
    ∧ resolveDirectory ["a.jpg", "b.txt", "c.png"] = Except.ok ["a.jpg", "c.png"] := by
  refine ⟨fun entries files h e => ?_, fun entries => ⟨fun ⟨msg, h⟩ => ?_, fun hall => ?_⟩, ?_⟩
  · unfold resolveDirectory at h
    split at h
    · cases h
    · cases h
      simp [List.mem_filter]
  · unfold resolveDirectory at h
    split at h
    · rename_i hlen
      intro e he
      have hnil := List.length_eq_zero.mp hlen
      have := List.filter_eq_nil_iff.mp hnil e he
      simpa using this
    · cases h
  · refine ⟨emptyDirectoryMsg, ?_⟩
    unfold resolveDirectory
    rw [if_pos]
    rw [List.length_eq_zero, List.filter_eq_nil_iff]
    intro e he
    simp [hall e he]
  · rfl

/-- Witness for `resolveDirectory_spec`: membership instance on the
concrete directory `{a.jpg, b.txt, c.png}`. -/
theorem resolveDirectory_spec_witness :
    "c.png" ∈ ["a.jpg", "c.png"]
      ↔ ("c.png" ∈ ["a.jpg", "b.txt", "c.png"] ∧ isImageFile "c.png" = true) :=
  resolveDirectory_spec.1 ["a.jpg", "b.txt", "c.png"] ["a.jpg", "c.png"]
    resolveDirectory_spec.2.2 "c.png"

/-! ### The crop-dimensions prompt (src/index.mjs:127-134)

The validity test is `cropDimensions.length !== 2 ||
isNaN(cropDimensions[0]) || isNaN(cropDimensions[1])` after
`dimensions.split(" ")`.  `isNaN(t)` coerces the string `t` with the
ECMAScript StringToNumber conversion and tests for NaN: a whitespace-only
string converts to 0 (so it passes the test), and otherwise the trimmed
string must be a signed decimal literal or Infinity.  (The `0x`/`0o`/`0b`
radix-prefixed literals of StringToNumber are not modelled; no claim
involves them.) -/

/-- Strip leading and trailing whitespace from a character list. -/
def trimChars (cs : List Char) : List Char :=
  ((cs.dropWhile (fun c => c.isWhitespace)).reverse.dropWhile (fun c => c.isWhitespace)).reverse

def allDigits (cs : List Char) : Bool := cs.all (fun c => c.isDigit)

/-- Decimal exponent digits, with an optional sign. -/
def expDigits : List Char → Bool
  | '+' :: rest => !rest.isEmpty && allDigits rest
  | '-' :: rest => !rest.isEmpty && allDigits rest
  | rest => !rest.isEmpty && allDigits rest

/-- An optional trailing exponent part (`e`/`E`, sign, digits). -/
def expPart : List Char → Bool
  | [] => true
  | 'e' :: rest => expDigits rest
  | 'E' :: rest => expDigits rest
  | _ => false

/-- An unsigned decimal literal: digits, optional fraction, optional
exponent, with at least one digit in mantissa. -/
def mantissaExp (cs : List Char) : Bool :=
  let ip := cs.takeWhile (fun c => c.isDigit)
  match cs.dropWhile (fun c => c.isDigit) with
  | '.' :: r2 =>
      (!ip.isEmpty || !(r2.takeWhile (fun c => c.isDigit)).isEmpty)
        && expPart (r2.dropWhile (fun c => c.isDigit))
  | r1 => !ip.isEmpty && expPart r1

def unsignedNumericLiteral (cs : List Char) : Bool :=
  cs == "Infinity".data || mantissaExp cs

/-- Model of JavaScript `isNaN(s)` on a string argument. -/
def jsStringToNumberIsNaN (s : String) : Bool :=
  match trimChars s.data with
  | [] => false
  | '+' :: rest => !(unsignedNumericLiteral rest)
  | '-' :: rest => !(unsignedNumericLiteral rest)
  | cs => !(unsignedNumericLiteral cs)

/-- JavaScript `input.split(" ")`: split on every single space, keeping
empty pieces (`""` splits to `[""]`). -/
def splitOnSpace : List Char → List (List Char)
  | [] => [[]]
  | ' ' :: rest => [] :: splitOnSpace rest
  | c :: rest =>
      match splitOnSpace rest with
      | [] => [[c]]
      | t :: ts => (c :: t) :: ts

/-- The `InvalidDimensionsError` message thrown at src/index.mjs:132. -/
def invalidDimensionsMsg : String := "Invalid dimensions! Please provide valid numbers."

/-- The crop-dimensions prompt validation (src/index.mjs:129-134): split
the answer on spaces and reject unless there are exactly two pieces, each
passing the `isNaN` numeric test; the accepted pieces are kept as strings
(they are fed to `parseInt` at src/index.mjs:55 when resizing). -/
def parseCropDimensions (input : String) : Except String (String × String) :=
  match (splitOnSpace input.data).map String.mk with
  | [w, h] =>
      if jsStringToNumberIsNaN w || jsStringToNumberIsNaN h then
        Except.error invalidDimensionsMsg
      else Except.ok (w, h)
  | _ => Except.error invalidDimensionsMsg

/-- C6 counterexample: the input "0 600" is accepted (no
`InvalidDimensionsError`), yet its width token parses to 0, which is not a
positive integer. -/
theorem parseCropDimensions_counterexample :
    parseCropDimensions "0 600" = Except.ok ("0", "600")
    ∧ parseIntJS "0" = some 0 ∧ ¬ (0 : ℤ) > 0 := by
  refine ⟨rfl, by decide, by decide⟩

/-- C6 (amended): the prompt fails with the `InvalidDimensionsError`
exactly when the input does not split (on single spaces) into exactly two
tokens each passing JavaScript's `isNaN` numeric test; "800 600" is
accepted with width token "800" and height token "600" (parsing to 800 and
600), while "abc 600" and the single token "800" are rejected.  Accepted
tokens are not required to denote positive integers. -/
theorem parseCropDimensions_amended :
    (∀ input, (∃ wh, parseCropDimensions input = Except.ok wh) ↔
        ∃ w h, (splitOnSpace input.data).map String.mk = [w, h]
          ∧ jsStringToNumberIsNaN w = false ∧ jsStringToNumberIsNaN h = false)
    ∧ parseCropDimensions "800 600" = Except.ok ("800", "600")
    ∧ parseIntJS "800" = some 800 ∧ parseIntJS "600" = some 600
    ∧ parseCropDimensions "abc 600" = Except.error invalidDimensionsMsg
    ∧ parseCropDimensions "800" = Except.error invalidDimensionsMsg := by
  refine ⟨fun input => ?_, rfl, by decide, by decide, rfl, rfl⟩
  unfold parseCropDimensions
  rcases hs : (splitOnSpace input.data).map String.mk with _ | ⟨w, _ | ⟨h, _ | ⟨x, xs⟩⟩⟩
  · simp
  · simp
  · by_cases hw : jsStringToNumberIsNaN w
    · simp [hw]
    · by_cases hh : jsStringToNumberIsNaN h
      · simp [hw, hh]
      · simp [hw, hh]
        exact ⟨w, h, ⟨rfl, rfl⟩, Bool.not_eq_true _ ▸ hw, Bool.not_eq_true _ ▸ hh⟩
  · simp

/-- Witness for `parseCropDimensions_amended`: "800 600" is accepted via
the acceptance characterisation. -/
theorem parseCropDimensions_amended_witness :
    ∃ wh, parseCropDimensions "800 600" = Except.ok wh :=
  (parseCropDimensions_amended.1 "800 600").mpr ⟨"800", "600", by decide, by decide, by decide⟩

/-! ### The URL branch of `main` (src/index.mjs:138-153)

Path helpers model the Node `path` functions on the forward-slash paths
this branch builds (`path.join` is modelled without normalisation, which
coincides with Node on the separator-free components used here). -/

/-- Node `path.basename`: the part after the last `/`. -/
def pathBasename (p : String) : String :=
  String.mk ((p.data.reverse.takeWhile (fun c => !(c == '/'))).reverse)

/-- Node `path.extname`: from the last `.` of the basename to the end;
empty when there is no dot or the only dot leads the basename. -/
def pathExtname (p : String) : String :=
  match ((pathBasename p).data.reverse.dropWhile (fun c => !(c == '.'))) with
  | [] => ""
  | _ :: [] => ""
  | _ :: _ :: _ =>
      String.mk ('.' :: ((pathBasename p).data.reverse.takeWhile (fun c => !(c == '.'))).reverse)

/-- Node `path.join` of two components (no normalisation). -/
def pathJoin (a b : String) : String := a ++ "/" ++ b

/-- The two arguments of the `downloadImage(inputPath, inputPath)` call at
src/index.mjs:152: what `fetch` receives and where the bytes are written. -/
structure DownloadCall where
  url : String
  outputPath : String
deriving DecidableEq

/-- The URL branch of `main` (src/index.mjs:139-152): derive the file name
from the URL's pathname (`outputFileName || urlFilename`, an empty prompt
answer being falsy), join it onto the downloads directory, append the URL
extension when the result has none — and then call
`downloadImage(inputPath, inputPath)` on the reassigned `inputPath`. -/
def urlBranchDownloadCall (downloadDir urlPathname outputFileName : String) : DownloadCall :=
  let urlFilename := pathBasename urlPathname
  let urlFileExtension := pathExtname urlFilename
  let inputPath := pathJoin downloadDir
    (if outputFileName = "" then urlFilename else outputFileName)
  let inputPath2 := if pathExtname inputPath = "" then inputPath ++ urlFileExtension else inputPath
  { url := inputPath2, outputPath := inputPath2 }

/-- `downloadImage` (src/index.mjs:31-37), over a network oracle `net`
(`none` models a non-success response): throw on failure, otherwise write
the fetched bytes to the output path. -/
def downloadImage (net : String → Option (List ℕ)) (url outputPath : String) :
    Except String (String × List ℕ) :=
  match net url with
  | none => Except.error "Failed to download image"
  | some bytes => Except.ok (outputPath, bytes)

/-- C1: `main` reassigns `inputPath` to the derived local destination path
before calling `downloadImage(inputPath, inputPath)`, so the string handed
to `fetch` is always the local destination path, never the user-supplied
URL.  Concretely, for the URL token `https://example.com/pic.jpg` (pathname
`/pic.jpg`) with a blank output-name answer, `fetch` receives
`downloads/pic.jpg`. -/
theorem urlBranch_fetches_destination_not_url :
    (∀ downloadDir urlPathname outputFileName,
        (urlBranchDownloadCall downloadDir urlPathname outputFileName).url
          = (urlBranchDownloadCall downloadDir urlPathname outputFileName).outputPath)
    ∧ (urlBranchDownloadCall "downloads" "/pic.jpg" "").url = "downloads/pic.jpg"
    ∧ ¬ (urlBranchDownloadCall "downloads" "/pic.jpg" "").url = "https://example.com/pic.jpg" := by
  exact ⟨fun _ _ _ => rfl, by decide, by decide⟩

end CliImageOpt
